import Mathlib

/-!
Shallow embedding of the market-data pipeline of `src/services/chartDataService.ts`
(and the `isMarketOpen` helper of `src/services/apiConfig.ts`).

Modelling conventions:
* JavaScript numbers that flow through the candle validator are modelled by
  `JsNum`: an exact rational together with the IEEE special values `NaN`,
  `+Infinity` and `-Infinity`.  The validator only ever compares numbers
  (`>`, `>=`, `<`) and tests `isNaN`; IEEE comparison semantics on these
  values is exact (no rounding is involved), so the embedding is faithful.
* The `time` field of a candle is an integer (seconds since epoch), as in the
  data model; it is the sort / dedup key.
* Dates are modelled as ordinal day numbers (`Int`, days since the Unix
  epoch); JavaScript `Date` day arithmetic (`setDate(getDate() - n)`) is
  ordinal arithmetic, and `getDay()` is `(ordinal + 4) % 7` (day 0,
  1970-01-01, was a Thursday = 4).
* Network and cache effects are made explicit: a fetch function returns the
  list of HTTP requests it issued and the cache reads/writes it performed,
  as a function of an environment giving the cache contents and the network
  responses.
* The event-loop concurrency of the websocket manager and of overlapping
  fetches is modelled by small-step interpreters over explicit schedules of
  events; a schedule is a realisable interleaving of the callbacks.
-/

/-- A JavaScript number as seen by the candle validator: exact rational or an
IEEE special value.  `typeof x === 'number'` is true for all of these. -/
inductive JsNum where
  | nan : JsNum
  | negInf : JsNum
  | posInf : JsNum
  | num : Rat → JsNum
deriving DecidableEq, Repr

namespace JsNum

/-- JavaScript `isNaN(x)`. -/
def isNaN : JsNum → Bool
  | nan => true
  | _ => false

/-- IEEE `x < y`: false whenever either side is NaN. -/
def lt : JsNum → JsNum → Bool
  | nan, _ => false
  | _, nan => false
  | negInf, negInf => false
  | negInf, posInf => true
  | negInf, num _ => true
  | posInf, _ => false
  | num _, negInf => false
  | num _, posInf => true
  | num a, num b => a < b

/-- IEEE `x > y`. -/
def gt (a b : JsNum) : Bool := lt b a

/-- IEEE `x <= y`: false whenever either side is NaN. -/
def le : JsNum → JsNum → Bool
  | nan, _ => false
  | _, nan => false
  | negInf, _ => true
  | posInf, posInf => true
  | posInf, negInf => false
  | posInf, num _ => false
  | num _, posInf => true
  | num _, negInf => false
  | num a, num b => a ≤ b

/-- IEEE `x >= y`. -/
def ge (a b : JsNum) : Bool := le b a

/-- On non-NaN values, `¬ (x < y)` is exactly `y ≤ x` (the values are totally
ordered with `-∞ <` rationals `< +∞`). -/
theorem le_of_not_lt : ∀ {a b : JsNum}, a.isNaN = false → b.isNaN = false →
    lt a b = false → le b a = true
  | nan, _, h, _, _ => by simp [isNaN] at h
  | negInf, nan, _, h, _ => by simp [isNaN] at h
  | posInf, nan, _, h, _ => by simp [isNaN] at h
  | num _, nan, _, h, _ => by simp [isNaN] at h
  | negInf, negInf, _, _, _ => rfl
  | negInf, posInf, _, _, h => by simp [lt] at h
  | negInf, num _, _, _, h => by simp [lt] at h
  | posInf, negInf, _, _, _ => rfl
  | posInf, posInf, _, _, _ => rfl
  | posInf, num _, _, _, _ => rfl
  | num _, negInf, _, _, _ => rfl
  | num _, posInf, _, _, h => by simp [lt] at h
  | num a, num b, _, _, h => by
      simp [lt] at h
      simpa [le] using h

end JsNum

/-- Structure `CandleData` of `src/types.ts` (the optional `oi` field is never consulted
by the pipeline and is omitted).  The TypeScript field `open` is a reserved
word in Lean and is spelled `open_` here. -/
structure CandleData where
  time : Int
  ts : String
  open_ : JsNum
  high : JsNum
  low : JsNum
  close : JsNum
  volume : JsNum
deriving DecidableEq, Repr

/-- The body of the filter predicate of `validateCandles`
(`chartDataService.ts` lines 248-276): keep a candle iff all of O/H/L/C are
non-NaN positive numbers, volume is a non-NaN number `>= 0`, and none of the
negated OHLC-relationship checks `high < low`, `high < open`, `high < close`,
`low > open`, `low > close` fires. -/
def validCandle (c : CandleData) : Bool :=
  (!c.open_.isNaN && c.open_.gt (.num 0) &&
   !c.high.isNaN && c.high.gt (.num 0) &&
   !c.low.isNaN && c.low.gt (.num 0) &&
   !c.close.isNaN && c.close.gt (.num 0) &&
   !c.volume.isNaN && c.volume.ge (.num 0)) &&
  !(c.high.lt c.low) &&
  !(c.high.lt c.open_ || c.high.lt c.close || c.low.gt c.open_ || c.low.gt c.close)

/-- Function `validateCandles` (lines 248-276): `candles.filter(...)`. -/
def validateCandles (candles : List CandleData) : List CandleData :=
  candles.filter validCandle

/-- The loop of `deduplicateCandles` (lines 230-242): walk the list keeping a
`seen` set of timestamps, keep the first occurrence of each `time`. -/
def dedupGo (seen : List Int) : List CandleData → List CandleData
  | [] => []
  | c :: rest =>
      if c.time ∈ seen then dedupGo seen rest
      else c :: dedupGo (c.time :: seen) rest

/-- Function `deduplicateCandles` (lines 230-242). -/
def deduplicateCandles (candles : List CandleData) : List CandleData :=
  dedupGo [] candles

/-- The comparator `(a, b) => a.time - b.time` of `sortCandles`: ascending by
`time`.  `Array.prototype.sort` is a stable sort, modelled by `mergeSort`. -/
def candleLe (a b : CandleData) : Bool := a.time ≤ b.time

/-- Function `sortCandles` (lines 281-283). -/
def sortCandles (candles : List CandleData) : List CandleData :=
  candles.mergeSort candleLe

/-- Function `cleanChartData` (lines 291-310): empty in, empty out; otherwise validate,
deduplicate, sort. -/
def cleanChartData (candles : List CandleData) : List CandleData :=
  if candles.isEmpty then []
  else sortCandles (deduplicateCandles (validateCandles candles))


-- ================== NORMALIZER LEMMAS ==================

theorem mem_validateCandles {l : List CandleData} {c : CandleData}
    (h : c ∈ validateCandles l) : validCandle c = true :=
  (List.mem_filter.mp h).2

theorem mem_validateCandles_self {l : List CandleData} {c : CandleData}
    (hc : c ∈ l) (hv : validCandle c = true) : c ∈ validateCandles l :=
  List.mem_filter.mpr ⟨hc, hv⟩

/-- An element the validator keeps satisfies the OHLC order facts of the
series invariant. -/
theorem validCandle_bounds {c : CandleData} (h : validCandle c = true) :
    c.low.le c.open_ = true ∧ c.open_.le c.high = true ∧
    c.low.le c.close = true ∧ c.close.le c.high = true ∧
    c.low.le c.high = true := by
  simp only [validCandle, Bool.and_eq_true, Bool.not_eq_true', Bool.or_eq_false_iff,
    JsNum.gt, and_assoc] at h
  obtain ⟨ho, _, hh, _, hl, _, hc, _, _, _, hhl, h1, h2, h3, h4⟩ := h
  exact ⟨JsNum.le_of_not_lt ho hl h3, JsNum.le_of_not_lt hh ho h1,
    JsNum.le_of_not_lt hc hl h4, JsNum.le_of_not_lt hh hc h2,
    JsNum.le_of_not_lt hh hl hhl⟩

theorem dedupGo_sublist (seen : List Int) :
    ∀ l : List CandleData, List.Sublist (dedupGo seen l) l := by
  intro l
  induction l generalizing seen with
  | nil => simp [dedupGo]
  | cons c rest ih =>
      by_cases h : c.time ∈ seen
      · simpa [dedupGo, h] using (ih seen).trans (List.sublist_cons_self c rest)
      · simpa [dedupGo, h] using (ih (c.time :: seen)).cons₂ c

theorem dedupGo_time_notin {seen : List Int} {l : List CandleData} {c : CandleData}
    (h : c ∈ dedupGo seen l) : c.time ∉ seen := by
  induction l generalizing seen with
  | nil => simp [dedupGo] at h
  | cons d rest ih =>
      by_cases hd : d.time ∈ seen
      · exact ih (by simpa [dedupGo, hd] using h)
      · simp only [dedupGo, hd, if_false, List.mem_cons] at h
        rcases h with rfl | h
        · exact hd
        · intro hc
          exact ih h (List.mem_cons_of_mem _ hc)

theorem dedupGo_pairwise (seen : List Int) (l : List CandleData) :
    (dedupGo seen l).Pairwise (fun a b => a.time ≠ b.time) := by
  induction l generalizing seen with
  | nil => simp [dedupGo]
  | cons c rest ih =>
      by_cases h : c.time ∈ seen
      · simpa [dedupGo, h] using ih seen
      · simp only [dedupGo, h, if_false]
        refine List.Pairwise.cons ?_ (ih (c.time :: seen))
        intro b hb heq
        exact dedupGo_time_notin hb (heq ▸ List.mem_cons_self _ _)

theorem dedupGo_eq_self : ∀ (seen : List Int) (l : List CandleData),
    (∀ c ∈ l, c.time ∉ seen) → l.Pairwise (fun a b => a.time ≠ b.time) →
    dedupGo seen l = l
  | _, [], _, _ => rfl
  | seen, c :: rest, hnot, hpw => by
      have hc : c.time ∉ seen := hnot c (List.mem_cons_self _ _)
      simp only [dedupGo, hc, if_false]
      rw [dedupGo_eq_self (c.time :: seen) rest ?_ (List.Pairwise.of_cons hpw)]
      intro d hd
      simp only [List.mem_cons]
      rintro (heq | hmem)
      · exact (List.pairwise_cons.mp hpw).1 d hd heq.symm
      · exact hnot d (List.mem_cons_of_mem _ hd) hmem

theorem candleLe_trans : ∀ (a b c : CandleData),
    candleLe a b → candleLe b c → candleLe a c := by
  intro a b c hab hbc
  simp only [candleLe, decide_eq_true_eq] at *
  omega

theorem candleLe_total : ∀ (a b : CandleData), candleLe a b || candleLe b a := by
  intro a b
  simp only [candleLe, Bool.or_eq_true, decide_eq_true_eq]
  omega

theorem sortCandles_perm (l : List CandleData) : List.Perm (sortCandles l) l :=
  List.mergeSort_perm l candleLe

theorem sortCandles_sorted (l : List CandleData) :
    (sortCandles l).Pairwise (fun a b => candleLe a b = true) :=
  List.sorted_mergeSort candleLe_trans candleLe_total l

/-- The output of `cleanChartData` is pairwise strictly increasing in `time`. -/
theorem cleanChartData_pairwise_lt (candles : List CandleData) :
    (cleanChartData candles).Pairwise (fun a b => a.time < b.time) := by
  unfold cleanChartData
  by_cases he : candles.isEmpty
  · simp [he]
  · simp only [he, if_false]
    have hperm := sortCandles_perm (deduplicateCandles (validateCandles candles))
    have hne : (sortCandles (deduplicateCandles (validateCandles candles))).Pairwise
        (fun a b => a.time ≠ b.time) :=
      (dedupGo_pairwise [] (validateCandles candles)).perm hperm.symm
        (fun h => Ne.symm h)
    have hle := sortCandles_sorted (deduplicateCandles (validateCandles candles))
    refine (hle.and hne).imp ?_
    intro a b hab
    obtain ⟨h1, h2⟩ := hab
    simp only [candleLe, decide_eq_true_eq] at h1
    omega

/-- Every element of `cleanChartData`'s output was kept by the validator. -/
theorem mem_cleanChartData_valid {candles : List CandleData} {c : CandleData}
    (h : c ∈ cleanChartData candles) : validCandle c = true := by
  unfold cleanChartData at h
  by_cases he : candles.isEmpty
  · simp [he] at h
  · simp only [he, if_false] at h
    have h1 : c ∈ deduplicateCandles (validateCandles candles) :=
      (sortCandles_perm _).mem_iff.mp h
    have h2 : c ∈ validateCandles candles :=
      (dedupGo_sublist [] (validateCandles candles)).subset h1
    exact mem_validateCandles h2

/-- C2: For every input list of raw candles, the output of the normalizer
(`cleanChartData`) has strictly increasing time values, contains no duplicate
time value, and every element satisfies low ≤ open ≤ high, low ≤ close ≤ high,
and low ≤ high. -/
theorem c2_normalizer_invariants (candles : List CandleData) :
    (cleanChartData candles).Pairwise (fun a b => a.time < b.time) ∧
    ((cleanChartData candles).map (fun c => c.time)).Nodup ∧
    ∀ c ∈ cleanChartData candles,
      c.low.le c.open_ = true ∧ c.open_.le c.high = true ∧
      c.low.le c.close = true ∧ c.close.le c.high = true ∧
      c.low.le c.high = true := by
  refine ⟨cleanChartData_pairwise_lt candles, ?_, ?_⟩
  · have hpw : ((cleanChartData candles).map (fun c => c.time)).Pairwise
        (fun a b => a < b) :=
      List.pairwise_map.mpr (cleanChartData_pairwise_lt candles)
    exact hpw.imp (fun hab => by omega)
  · intro c hc
    exact validCandle_bounds (mem_cleanChartData_valid hc)

-- ================== C8 / C9 ==================

/-- A candle whose `open` and `high` are `+Infinity`: `isNaN` is false and
`Infinity > 0` is true, so `validateCandles` keeps it. -/
def infCandle : CandleData :=
  { time := 0, ts := "t", open_ := JsNum.posInf, high := JsNum.posInf,
    low := JsNum.num 1, close := JsNum.num 1, volume := JsNum.num 0 }

/-- An ordinary valid candle. -/
def goodC : CandleData :=
  { time := 0, ts := "t", open_ := JsNum.num 1, high := JsNum.num 2,
    low := JsNum.num 1, close := JsNum.num 2, volume := JsNum.num 0 }

theorem cleanChartData_infCandle : cleanChartData [infCandle] = [infCandle] := by
  have hv : validCandle infCandle = true := by decide
  simp [cleanChartData, validateCandles, deduplicateCandles, dedupGo, sortCandles, hv]

theorem cleanChartData_goodC : cleanChartData [goodC] = [goodC] := by
  have hv : validCandle goodC = true := by decide
  simp [cleanChartData, validateCandles, deduplicateCandles, dedupGo, sortCandles, hv]

/-- C8 counterexample: a raw candle whose `open` (and `high`) is the
non-finite value `+Infinity` is NOT dropped by the normalizer — the validator
only tests `isNaN` and `> 0`, both of which `Infinity` passes — so a record
with a non-finite `open` appears in the normalizer's output. -/
theorem c8_counterexample_inf_kept :
    infCandle.open_ = JsNum.posInf ∧ infCandle ∈ cleanChartData [infCandle] :=
  ⟨rfl, by rw [cleanChartData_infCandle]; exact List.mem_singleton_self _⟩

/-- Auxiliary: the valid-field facts enjoyed by every surviving candle. -/
def survivorFacts (c : CandleData) : Prop :=
  c.open_.isNaN = false ∧ c.open_.gt (JsNum.num 0) = true ∧
  c.high.isNaN = false ∧ c.high.gt (JsNum.num 0) = true ∧
  c.low.isNaN = false ∧ c.low.gt (JsNum.num 0) = true ∧
  c.close.isNaN = false ∧ c.close.gt (JsNum.num 0) = true ∧
  c.volume.isNaN = false ∧ c.volume.ge (JsNum.num 0) = true

theorem validCandle_survivorFacts {c : CandleData} (hv : validCandle c = true) :
    survivorFacts c := by
  simp only [validCandle, Bool.and_eq_true, Bool.not_eq_true', and_assoc] at hv
  obtain ⟨h1, h2, h3, h4, h5, h6, h7, h8, h9, h10, _⟩ := hv
  exact ⟨h1, h2, h3, h4, h5, h6, h7, h8, h9, h10⟩

/-- C8 (amended): every raw candle with a NaN or non-positive open, high, low
or close, or a NaN or negative volume, is dropped during normalization — no
such record appears in the normalizer's output — and dropping it does not
affect the processing of the remaining records (the output equals the output
on the pre-validated batch).  Non-finite but non-NaN values (`±Infinity`) are
NOT filtered: the validator's finiteness test is only `isNaN`. -/
theorem c8_amended_invalid_dropped (l : List CandleData) :
    (∀ c ∈ cleanChartData l, survivorFacts c) ∧
    cleanChartData l = cleanChartData (validateCandles l) := by
  constructor
  · intro c hc
    exact validCandle_survivorFacts (mem_cleanChartData_valid hc)
  · by_cases he : l.isEmpty
    · have : l = [] := List.isEmpty_iff.mp he
      subst this
      rfl
    · have hvv : validateCandles (validateCandles l) = validateCandles l := by
        unfold validateCandles
        exact List.filter_eq_self.mpr (fun a ha => (List.mem_filter.mp ha).2)
      by_cases he2 : (validateCandles l).isEmpty
      · have h2 : validateCandles l = [] := List.isEmpty_iff.mp he2
        unfold cleanChartData
        simp [he, he2, h2, deduplicateCandles, dedupGo, sortCandles]
      · unfold cleanChartData
        simp [he, he2, hvv]

/-- Witness for the amended C8 at a concrete input. -/
theorem c8_amended_witness : survivorFacts goodC :=
  (c8_amended_invalid_dropped [goodC]).1 goodC
    (by rw [cleanChartData_goodC]; exact List.mem_singleton_self _)

theorem cleanChartData_fixed {l : List CandleData} (hv : validateCandles l = l)
    (hd : deduplicateCandles l = l) (hs : sortCandles l = l) :
    cleanChartData l = l := by
  unfold cleanChartData
  by_cases he : l.isEmpty
  · simp [he, List.isEmpty_iff.mp he]
  · simp [he, hv, hd, hs]

/-- C9: the normalizer is idempotent — applying `cleanChartData` to its own
output returns that output unchanged. -/
theorem c9_normalizer_idempotent (candles : List CandleData) :
    cleanChartData (cleanChartData candles) = cleanChartData candles := by
  have hvalid : validateCandles (cleanChartData candles) = cleanChartData candles :=
    List.filter_eq_self.mpr (fun a ha => mem_cleanChartData_valid ha)
  have hpairne : (cleanChartData candles).Pairwise (fun a b => a.time ≠ b.time) :=
    (cleanChartData_pairwise_lt candles).imp (fun hab => by omega)
  have hdedup : deduplicateCandles (cleanChartData candles) = cleanChartData candles :=
    dedupGo_eq_self [] _ (by simp) hpairne
  have hsortedle : (cleanChartData candles).Pairwise (fun a b => candleLe a b = true) :=
    (cleanChartData_pairwise_lt candles).imp
      (fun hab => by simp only [candleLe, decide_eq_true_eq]; omega)
  have hsort : sortCandles (cleanChartData candles) = cleanChartData candles :=
    List.mergeSort_of_sorted hsortedle
  exact cleanChartData_fixed hvalid hdedup hsort

-- ================== MARKET DAY (C7) ==================

/-- JavaScript `Date.getDay()` for the date whose ordinal day number (days since the Unix
epoch) is `d`: day 0, 1970-01-01, was a Thursday (4). -/
def jsDayOfWeek (d : Int) : Int := (d + 4) % 7

/-- The pre-open test of line 176: `hours < 9 || (hours === 9 && minutes < 15)`. -/
def beforeOpen (h m : Nat) : Prop := h < 9 ∨ (h = 9 ∧ m < 15)

instance (h m : Nat) : Decidable (beforeOpen h m) := by
  unfold beforeOpen
  infer_instance

/-- Function `getLastMarketDay` (lines 157-189) as a function of the IST-converted
instant: ordinal day `d`, hour `h`, minute `m` (the source converts the
wall clock to IST first; `setDate(getDate() - n)` is ordinal subtraction). -/
def getLastMarketDay (d : Int) (h m : Nat) : Int :=
  if jsDayOfWeek d = 0 then d - 2
  else if jsDayOfWeek d = 6 then d - 1
  else if beforeOpen h m then
    if jsDayOfWeek d = 1 then d - 3 else d - 1
  else d

/-- C7: for a Monday instant before the 09:15 IST open, `getLastMarketDay`
returns the preceding Friday (3 days back); a Saturday returns the previous
day (Friday); a Sunday goes back two days to Friday; and a Tuesday–Friday
pre-open instant returns the previous day. -/
theorem c7_last_market_day (d : Int) (h m : Nat) :
    (jsDayOfWeek d = 1 → beforeOpen h m →
        getLastMarketDay d h m = d - 3 ∧ jsDayOfWeek (d - 3) = 5) ∧
    (jsDayOfWeek d = 6 → getLastMarketDay d h m = d - 1 ∧ jsDayOfWeek (d - 1) = 5) ∧
    (jsDayOfWeek d = 0 → getLastMarketDay d h m = d - 2 ∧ jsDayOfWeek (d - 2) = 5) ∧
    (2 ≤ jsDayOfWeek d → jsDayOfWeek d ≤ 5 → beforeOpen h m →
        getLastMarketDay d h m = d - 1) := by
  refine ⟨?_, ?_, ?_, ?_⟩
  · intro hdow hpre
    refine ⟨?_, ?_⟩
    · simp [getLastMarketDay, hdow, hpre]
    · simp only [jsDayOfWeek] at *
      omega
  · intro hdow
    refine ⟨?_, ?_⟩
    · simp [getLastMarketDay, hdow]
    · simp only [jsDayOfWeek] at *
      omega
  · intro hdow
    refine ⟨?_, ?_⟩
    · simp [getLastMarketDay, hdow]
    · simp only [jsDayOfWeek] at *
      omega
  · intro h2 h5 hpre
    have h0 : jsDayOfWeek d ≠ 0 := by omega
    have h6 : jsDayOfWeek d ≠ 6 := by omega
    have h1 : jsDayOfWeek d ≠ 1 := by omega
    simp [getLastMarketDay, h0, h6, h1, hpre]

/-- Witness: day 4 (1970-01-05) was a Monday; at 08:00 IST the function
returns day 1 (1970-01-02), a Friday. -/
theorem c7_last_market_day_witness :
    getLastMarketDay 4 8 0 = 1 ∧ jsDayOfWeek 1 = 5 :=
  (c7_last_market_day 4 8 0).1 (by decide) (Or.inl (by decide))

-- ================== WEBSOCKET STREAM MANAGER ==================

/-- Constant `MAX_RECONNECT_ATTEMPTS` (line 41). -/
def MAX_RECONNECT_ATTEMPTS : Nat := 5

/-- The reconnect delay of line 633:
`Math.min(1000 * Math.pow(2, wsReconnectAttempts), 30000)`. -/
def reconnectDelay (attempts : Nat) : Nat := min (1000 * 2 ^ attempts) 30000

/-- A websocket object: the `instrumentKeys` captured by the handlers
installed in `connectMarketWebSocket` (lines 579-646), and whether its
`readyState` is `OPEN`. -/
structure WsSocket where
  closureKeys : List String
  isOpen : Bool
deriving DecidableEq, Repr

/-- The module-level state of lines 38-41: `wsConnection`,
`wsReconnectAttempts`, and the pending reconnect timer (delay and the keys
the timer callback will reconnect with). -/
structure WsState where
  wsConnection : Option WsSocket
  wsReconnectAttempts : Nat
  wsReconnectTimer : Option (Nat × List String)
deriving DecidableEq, Repr

def initialWsState : WsState := ⟨none, 0, none⟩

/-- Observable effects: a subscribe message sent on the socket, or a
reconnect scheduled via `setTimeout`. -/
inductive WsOutput where
  | subscribe (keys : List String)
  | scheduleReconnect (delay : Nat)
deriving DecidableEq, Repr

/-- A call to `connectMarketWebSocket(keys, ...)` (lines 579-610): if
`wsConnection` is non-null, just `subscribeToInstruments(keys)` (which sends
only when the socket is `OPEN`, lines 648-662); otherwise create a socket
whose handlers capture `keys`.  An auth token is assumed present. -/
def wsConnectStep (keys : List String) (s : WsState) : WsState × List WsOutput :=
  match s.wsConnection with
  | some sock =>
      if sock.isOpen then (s, [.subscribe keys]) else (s, [])
  | none => ({ s with wsConnection := some ⟨keys, false⟩ }, [])

/-- The `onopen` handler (lines 603-610): reset `wsReconnectAttempts`, then
`subscribeToInstruments(instrumentKeys)` with the keys captured by THIS
connection's closure (the socket is `OPEN` when the event fires). -/
def wsOpenStep (s : WsState) : WsState × List WsOutput :=
  match s.wsConnection with
  | some sock =>
      ({ s with wsConnection := some { sock with isOpen := true },
                wsReconnectAttempts := 0 },
       [.subscribe sock.closureKeys])
  | none => (s, [])

/-- The `onclose` handler (lines 626-641) of a socket whose captured keys are
`closureKeys`, with `isMarketOpen()` evaluating to `marketOpen`: null out
`wsConnection`; if the market is open and fewer than
`MAX_RECONNECT_ATTEMPTS` attempts were made, schedule a reconnect after
`reconnectDelay` and increment the counter. -/
def wsCloseStep (marketOpen : Bool) (closureKeys : List String) (s : WsState) :
    WsState × List WsOutput :=
  let s1 : WsState := { s with wsConnection := none }
  if marketOpen = true ∧ s1.wsReconnectAttempts < MAX_RECONNECT_ATTEMPTS then
    ({ s1 with wsReconnectAttempts := s1.wsReconnectAttempts + 1,
               wsReconnectTimer := some (reconnectDelay s1.wsReconnectAttempts, closureKeys) },
     [.scheduleReconnect (reconnectDelay s1.wsReconnectAttempts)])
  else (s1, [])

/-- Function `disconnectMarketWebSocket` (lines 664-677): clear the timer, `close()`
the socket (its close event fires later, as a separate `closeEvt`), null out
`wsConnection`, reset `wsReconnectAttempts`. -/
def wsDisconnectStep (s : WsState) : WsState × List WsOutput :=
  ({ s with wsReconnectTimer := none, wsConnection := none,
            wsReconnectAttempts := 0 }, [])

/-- The reconnect timer firing (lines 637-639): call
`connectMarketWebSocket` again with the keys captured by the closure. -/
def wsTimerFireStep (s : WsState) : WsState × List WsOutput :=
  match s.wsReconnectTimer with
  | some (_, keys) => wsConnectStep keys { s with wsReconnectTimer := none }
  | none => (s, [])

/-- An event on the single-threaded event loop. -/
inductive WsEvent where
  | connect (keys : List String)
  | openEvt
  | closeEvt (marketOpen : Bool) (closureKeys : List String)
  | timerFire
  | disconnect
deriving DecidableEq, Repr

def wsStep (s : WsState) : WsEvent → WsState × List WsOutput
  | .connect keys => wsConnectStep keys s
  | .openEvt => wsOpenStep s
  | .closeEvt marketOpen closureKeys => wsCloseStep marketOpen closureKeys s
  | .timerFire => wsTimerFireStep s
  | .disconnect => wsDisconnectStep s

/-- Run a schedule of events from the initial module state, collecting the
outputs in order. -/
def runWs (events : List WsEvent) : WsState × List WsOutput :=
  events.foldl (fun acc e =>
    ((wsStep acc.1 e).1, acc.2 ++ (wsStep acc.1 e).2)) (initialWsState, [])

/-- C4: on an (unintentional) close, a reconnect is scheduled iff the market
is open and fewer than `MAX_RECONNECT_ATTEMPTS` (5) attempts were made; the
n-th reconnect's delay is `min(1000·2^n, 30000)` ms where n is the number of
attempts so far; those delays are strictly increasing (the 30 s cap is never
exceeded within the 5 attempts); and a close while the market is closed
schedules nothing. -/
theorem c4_reconnect_backoff (marketOpen : Bool) (keys : List String) (s : WsState) :
    ((wsCloseStep marketOpen keys s).2 ≠ [] ↔
        marketOpen = true ∧ s.wsReconnectAttempts < MAX_RECONNECT_ATTEMPTS) ∧
    (marketOpen = true → s.wsReconnectAttempts < MAX_RECONNECT_ATTEMPTS →
        (wsCloseStep marketOpen keys s).2 =
          [.scheduleReconnect (min (1000 * 2 ^ s.wsReconnectAttempts) 30000)]) ∧
    (∀ a b : Nat, a < b → b < MAX_RECONNECT_ATTEMPTS →
        reconnectDelay a < reconnectDelay b) ∧
    (marketOpen = false →
        wsCloseStep marketOpen keys s = ({ s with wsConnection := none }, [])) := by
  refine ⟨?_, ?_, ?_, ?_⟩
  · unfold wsCloseStep
    by_cases hc : marketOpen = true ∧ s.wsReconnectAttempts < MAX_RECONNECT_ATTEMPTS
    · simp [hc]
    · simp [hc]
  · intro hm ha
    unfold wsCloseStep
    simp [hm, ha, reconnectDelay]
  · intro a b hab hb
    unfold MAX_RECONNECT_ATTEMPTS at hb
    unfold reconnectDelay
    interval_cases b <;> interval_cases a <;> decide
  · intro hm
    unfold wsCloseStep
    simp [hm]

/-- Witness for C4 at the initial state (0 attempts so far, market open):
the first reconnect is scheduled after 1000 ms, and the first two delays are
strictly increasing. -/
theorem c4_reconnect_backoff_witness :
    (wsCloseStep true ["k"] initialWsState).2 =
      [.scheduleReconnect (min (1000 * 2 ^ (0 : Nat)) 30000)] ∧
    reconnectDelay 0 < reconnectDelay 1 :=
  ⟨(c4_reconnect_backoff true ["k"] initialWsState).2.1 rfl (by decide),
   (c4_reconnect_backoff true ["k"] initialWsState).2.2.1 0 1 (by decide) (by decide)⟩

/-- The schedule of C5's failing input: connect, the connection opens, the
client calls `disconnectMarketWebSocket`, then the close event of the closed
socket fires while the market is open (the `onclose` handler is still
attached; `disconnect` reset `wsReconnectAttempts` to 0 and set no
deliberate-close flag, so the handler's guard
`isMarketOpen() && wsReconnectAttempts < MAX_RECONNECT_ATTEMPTS` passes). -/
def c5Schedule : List WsEvent :=
  [.connect ["A"], .openEvt, .disconnect, .closeEvt true ["A"]]

/-- C5 is violated by the code: after a deliberate `disconnectMarketWebSocket`
while the market is open, the ensuing close event DOES schedule a reconnect
(after 1000 ms, with the old connection's keys) — the code keeps the
`onclose` handler attached, has no deliberate-close flag, and `disconnect`'s
reset of the retry counter re-arms the reconnect guard. -/
theorem c5_disconnect_schedules_reconnect :
    (runWs c5Schedule).2 = [.subscribe ["A"], .scheduleReconnect 1000] ∧
    (runWs c5Schedule).1.wsReconnectTimer = some (1000, ["A"]) := by
  constructor
  · rfl
  · rfl

/-- The schedule of C6's counterexample: connect with ["A"]; the connection
opens; a second `connectMarketWebSocket(["B"])` while connected subscribes
["B"] on the live socket; the connection closes unintentionally while the
market is open (the closing socket's handlers captured ["A"]); the reconnect
timer fires; the new connection opens. -/
def c6Schedule : List WsEvent :=
  [.connect ["A"], .openEvt, .connect ["B"], .closeEvt true ["A"], .timerFire, .openEvt]

/-- C6 counterexample: on the reconnect's open, the manager subscribes only
["A"] — the keys captured by the connect call that created the original
connection — although "B" was subscribed while connected and never
unsubscribed, so the full current subscription set {"A","B"} is NOT
re-subscribed ("B" is lost across the reconnect). -/
theorem c6_counterexample_resubscribe :
    (runWs c6Schedule).2 =
      [.subscribe ["A"], .subscribe ["B"],
       .scheduleReconnect 1000, .subscribe ["A"]] ∧
    ("B" : String) ∉ (["A"] : List String) := by
  refine ⟨rfl, ?_⟩
  decide

/-- C6 (amended): on every successful connection open the manager subscribes
exactly the keys captured by the connect call that created that connection —
for a reconnect, the keys of the original connect call whose `onclose`
handler scheduled it — not the union of everything ever subscribed; keys
passed to a connect call made while already connected are sent once at call
time but are not re-subscribed after a reconnect. -/
theorem c6_amended_resubscribes_closure_keys :
    (∀ (s : WsState) (sock : WsSocket), s.wsConnection = some sock →
        (wsOpenStep s).2 = [.subscribe sock.closureKeys]) ∧
    (∀ ka kb : List String,
        (runWs [.connect ka, .openEvt, .connect kb, .closeEvt true ka,
                .timerFire, .openEvt]).2 =
          [.subscribe ka, .subscribe kb, .scheduleReconnect 1000, .subscribe ka]) := by
  constructor
  · intro s sock hs
    unfold wsOpenStep
    rw [hs]
  · intro ka kb
    rfl

/-- Witness for the amended C6 at a concrete state and key lists. -/
theorem c6_amended_witness :
    (wsOpenStep ⟨some ⟨["A"], false⟩, 0, none⟩).2 = [.subscribe ["A"]] ∧
    (runWs [.connect ["A"], .openEvt, .connect ["B"], .closeEvt true ["A"],
            .timerFire, .openEvt]).2 =
      [.subscribe ["A"], .subscribe ["B"], .scheduleReconnect 1000, .subscribe ["A"]] :=
  ⟨c6_amended_resubscribes_closure_keys.1 ⟨some ⟨["A"], false⟩, 0, none⟩ ⟨["A"], false⟩ rfl,
   c6_amended_resubscribes_closure_keys.2 ["A"] ["B"]⟩

-- ================== HISTORY / INTRADAY FETCHER ==================

inductive Timeframe where
  | oneD | oneW | oneM | twoM | threeM | oneY
deriving DecidableEq, Repr

inductive CandleInterval where
  | m1 | m5 | m15 | h1 | d1
deriving DecidableEq, Repr

def timeframeStr : Timeframe → String
  | .oneD => "1D"
  | .oneW => "1W"
  | .oneM => "1M"
  | .twoM => "2M"
  | .threeM => "3M"
  | .oneY => "1Y"

def intervalStr : CandleInterval → String
  | .m1 => "1m"
  | .m5 => "5m"
  | .m15 => "15m"
  | .h1 => "1h"
  | .d1 => "1d"

/-- Function `getCacheKey` (lines 126-128). -/
def getCacheKey (instrumentKey : String) (timeframe : Timeframe)
    (interval : CandleInterval) : String :=
  instrumentKey ++ "|" ++ timeframeStr timeframe ++ "|" ++ intervalStr interval

/-- Function `intervalToApiParams` (lines 372-381): unit name and interval number. -/
def intervalToApiParams : CandleInterval → String × Nat
  | .m1 => ("minutes", 1)
  | .m5 => ("minutes", 5)
  | .m15 => ("minutes", 15)
  | .h1 => ("hours", 1)
  | .d1 => ("days", 1)

/-- Function `calculateLimit` (lines 353-370). -/
def calculateLimit (timeframe : Timeframe) (interval : CandleInterval) : Nat :=
  match timeframe with
  | .oneD => 500
  | .oneW => 1500
  | .oneM => 6000
  | .twoM => 6000
  | .threeM => 18000
  | .oneY => if interval = .d1 then 365 else 18000

/-- The wall-clock inputs of the date computations: the IST-converted instant
(ordinal day, hour, minute) used by `getLastMarketDay`, and the local date
ordinal used by the non-1D branch of `calculateDateRange`. -/
structure ClockEnv where
  istDay : Int
  istHour : Nat
  istMin : Nat
  localDay : Int
deriving DecidableEq, Repr

/-- Function `calculateDateRange` (lines 312-350), dates as ordinal days. -/
def calculateDateRange (clock : ClockEnv) (timeframe : Timeframe) : Int × Int :=
  match timeframe with
  | .oneD =>
      let d := getLastMarketDay clock.istDay clock.istHour clock.istMin
      (d, d)
  | .oneW => (clock.localDay - 7, clock.localDay)
  | .oneM => (clock.localDay - 30, clock.localDay)
  | .twoM => (clock.localDay - 60, clock.localDay)
  | .threeM => (clock.localDay - 90, clock.localDay)
  | .oneY => (clock.localDay - 365, clock.localDay)

inductive Endpoint where
  | history | intraday
deriving DecidableEq, Repr

/-- An HTTP candle request: endpoint, instrument key and the query
parameters built in lines 420-427 (history) / 514-519 (intraday); `order` is
always `asc` and is omitted. -/
structure FetchRequest where
  endpoint : Endpoint
  instrumentKey : String
  unit : String
  interval : Nat
  fromDay : Option Int
  toDay : Option Int
  limit : Nat
deriving DecidableEq, Repr

/-- The request of `getCandleIntraday` (lines 514-523). -/
def intradayRequest (instrumentKey : String) (interval : CandleInterval)
    (limit : Nat) : FetchRequest :=
  { endpoint := .intraday, instrumentKey := instrumentKey,
    unit := (intervalToApiParams interval).1,
    interval := (intervalToApiParams interval).2,
    fromDay := none, toDay := none, limit := limit }

/-- The request of the non-1D branch of `getCandleHistory` (lines 416-431). -/
def historyRequest (clock : ClockEnv) (instrumentKey : String)
    (timeframe : Timeframe) (interval : CandleInterval) : FetchRequest :=
  { endpoint := .history, instrumentKey := instrumentKey,
    unit := (intervalToApiParams interval).1,
    interval := (intervalToApiParams interval).2,
    fromDay := some (calculateDateRange clock timeframe).1,
    toDay := some (calculateDateRange clock timeframe).2,
    limit := calculateLimit timeframe interval }

/-- What one fetch call did: the fresh-cache lookups it performed, the HTTP
requests it issued, the cache entries it stored, and its return value. -/
structure FetchOutcome where
  cacheReads : List String
  requests : List FetchRequest
  cacheWrites : List (String × List CandleData)
  result : List CandleData
deriving DecidableEq, Repr

/-- The environment of one fetch: `cachedFresh key` is the value
`getCachedData(key)` returns (`none` = no entry or stale, lines 130-142);
`netResponse req` is the parsed, formatted candle list of an OK response, or
`none` for a transport failure / non-OK status.  The network layer is
abstracted to the formatted records; both fetchers run the identical
`map`+`cleanChartData` post-processing on them. -/
structure FetchEnv where
  cachedFresh : String → Option (List CandleData)
  netResponse : FetchRequest → Option (List CandleData)

/-- Function `getCandleIntraday` (lines 486-575): cache key always uses timeframe
'1D'; cache-first unless `forceRefresh`; on success clean and store. -/
def getCandleIntraday (env : FetchEnv) (instrumentKey : String)
    (interval : CandleInterval) (forceRefresh : Bool) (customLimit : Nat) :
    FetchOutcome :=
  match (if forceRefresh then none
              else env.cachedFresh (getCacheKey instrumentKey .oneD interval)) with
  | some d =>
      { cacheReads := [getCacheKey instrumentKey .oneD interval],
        requests := [], cacheWrites := [], result := d }
  | none =>
      match env.netResponse (intradayRequest instrumentKey interval customLimit) with
      | some raws =>
          { cacheReads := if forceRefresh then []
                          else [getCacheKey instrumentKey .oneD interval],
            requests := [intradayRequest instrumentKey interval customLimit],
            cacheWrites := [(getCacheKey instrumentKey .oneD interval,
                             cleanChartData raws)],
            result := cleanChartData raws }
      | none =>
          { cacheReads := if forceRefresh then []
                          else [getCacheKey instrumentKey .oneD interval],
            requests := [intradayRequest instrumentKey interval customLimit],
            cacheWrites := [], result := [] }

/-- Function `getCandleHistory` (lines 383-484): a '1D' timeframe is redirected to
`getCandleIntraday` with limit 200 (lines 389-395); otherwise cache-first,
then the history endpoint. -/
def getCandleHistory (env : FetchEnv) (clock : ClockEnv) (instrumentKey : String)
    (timeframe : Timeframe) (interval : CandleInterval) (forceRefresh : Bool) :
    FetchOutcome :=
  if timeframe = .oneD then
    getCandleIntraday env instrumentKey interval forceRefresh 200
  else
    match (if forceRefresh then none
                else env.cachedFresh (getCacheKey instrumentKey timeframe interval)) with
    | some d =>
        { cacheReads := [getCacheKey instrumentKey timeframe interval],
          requests := [], cacheWrites := [], result := d }
    | none =>
        match env.netResponse (historyRequest clock instrumentKey timeframe interval) with
        | some raws =>
            { cacheReads := if forceRefresh then []
                            else [getCacheKey instrumentKey timeframe interval],
              requests := [historyRequest clock instrumentKey timeframe interval],
              cacheWrites := [(getCacheKey instrumentKey timeframe interval,
                               cleanChartData raws)],
              result := cleanChartData raws }
        | none =>
            { cacheReads := if forceRefresh then []
                            else [getCacheKey instrumentKey timeframe interval],
              requests := [historyRequest clock instrumentKey timeframe interval],
              cacheWrites := [], result := [] }

/-- One tick of `startPollingFallback`'s `poll` (lines 698-707): re-check
market hours; if still open, `getCandleIntraday(instrumentKey, interval,
true)` — `forceRefresh = true` with the default `customLimit` of 500. -/
def pollOnce (marketOpenNow : Bool) (env : FetchEnv) (instrumentKey : String)
    (interval : CandleInterval) : Option FetchOutcome :=
  if marketOpenNow then
    some (getCandleIntraday env instrumentKey interval true 500)
  else none

theorem getCandleIntraday_requests_endpoint (env : FetchEnv) (k : String)
    (itv : CandleInterval) (force : Bool) (lim : Nat) :
    ∀ r ∈ (getCandleIntraday env k itv force lim).requests,
      r.endpoint = Endpoint.intraday := by
  intro r hr
  unfold getCandleIntraday at hr
  split at hr
  · simp at hr
  · split at hr
    · simp only [List.mem_singleton] at hr
      subst hr
      rfl
    · simp only [List.mem_singleton] at hr
      subst hr
      rfl

/-- C1: a `getCandleHistory` call with timeframe '1D' returns exactly the
result of `getCandleIntraday` for that instrument and interval with a fixed
limit of 200, for every instrument key, interval and `forceRefresh` flag —
and it never issues a request to the multi-day history endpoint. -/
theorem c1_oneD_uses_intraday (env : FetchEnv) (clock : ClockEnv)
    (instrumentKey : String) (interval : CandleInterval) (forceRefresh : Bool) :
    getCandleHistory env clock instrumentKey .oneD interval forceRefresh =
      getCandleIntraday env instrumentKey interval forceRefresh 200 ∧
    ∀ r ∈ (getCandleHistory env clock instrumentKey .oneD interval forceRefresh).requests,
      r.endpoint = Endpoint.intraday := by
  have heq : getCandleHistory env clock instrumentKey .oneD interval forceRefresh =
      getCandleIntraday env instrumentKey interval forceRefresh 200 := by
    unfold getCandleHistory
    rfl
  refine ⟨heq, ?_⟩
  rw [heq]
  exact getCandleIntraday_requests_endpoint env instrumentKey interval forceRefresh 200

/-- A concrete environment: empty cache, every request answered with an empty
candle list. -/
def envNoCache : FetchEnv :=
  { cachedFresh := fun _ => none, netResponse := fun _ => some [] }

def clock0 : ClockEnv := ⟨0, 10, 0, 0⟩

/-- Witness for C1: in a concrete environment the single request issued by a
'1D' history call goes to the intraday endpoint. -/
theorem c1_oneD_uses_intraday_witness :
    (intradayRequest "NSE_EQ|INE002A01018" .m1 200).endpoint = Endpoint.intraday :=
  (c1_oneD_uses_intraday envNoCache clock0 "NSE_EQ|INE002A01018" .m1 false).2
    (intradayRequest "NSE_EQ|INE002A01018" .m1 200) (by rw [(c1_oneD_uses_intraday envNoCache clock0 "NSE_EQ|INE002A01018" .m1 false).1]; simp [getCandleIntraday, envNoCache])

/-- C10: every `getCandleIntraday` call — for any interval, `forceRefresh`
flag and `customLimit` — reads and writes the candle cache only under the key
built with timeframe '1D' (`instrumentKey|1D|interval`); consequently a '1D'
`getCandleHistory` request, a direct intraday request, and a polling-fallback
forced refresh for the same instrument and interval all go through that one
cache entry. -/
theorem c10_intraday_cache_key_oneD (env : FetchEnv) (clock : ClockEnv)
    (k : String) (itv : CandleInterval) (force : Bool) (lim : Nat) :
    (∀ key ∈ (getCandleIntraday env k itv force lim).cacheReads,
        key = getCacheKey k .oneD itv) ∧
    (∀ kv ∈ (getCandleIntraday env k itv force lim).cacheWrites,
        kv.1 = getCacheKey k .oneD itv) ∧
    getCandleHistory env clock k .oneD itv force =
      getCandleIntraday env k itv force 200 ∧
    pollOnce true env k itv = some (getCandleIntraday env k itv true 500) := by
  refine ⟨?_, ?_, ?_, rfl⟩
  · intro key hkey
    unfold getCandleIntraday at hkey
    split at hkey
    · simp only [List.mem_singleton] at hkey
      exact hkey
    · split at hkey <;>
        · by_cases hf : force = true
          · simp [hf] at hkey
          · simp only [Bool.not_eq_true] at hf
            simp [hf] at hkey
            exact hkey
  · intro kv hkv
    unfold getCandleIntraday at hkv
    split at hkv
    · simp at hkv
    · split at hkv
      · simp only [List.mem_singleton] at hkv
        subst hkv
        rfl
      · simp at hkv
  · unfold getCandleHistory
    rfl

/-- Witness for C10 in a concrete environment: the one cache read of a
non-forced intraday call is under the '1D' key, and the polling tick is the
forced intraday call with limit 500. -/
theorem c10_intraday_cache_key_oneD_witness :
    getCacheKey "K" Timeframe.oneD CandleInterval.m5 =
      getCacheKey "K" Timeframe.oneD CandleInterval.m5 ∧
    pollOnce true envNoCache "K" CandleInterval.m5 =
      some (getCandleIntraday envNoCache "K" CandleInterval.m5 true 500) :=
  ⟨(c10_intraday_cache_key_oneD envNoCache clock0 "K" .m5 false 500).1
      (getCacheKey "K" .oneD .m5) (by simp [getCandleIntraday, envNoCache]),
   (c10_intraday_cache_key_oneD envNoCache clock0 "K" .m5 false 500).2.2.2⟩

-- ================== REQUEST SUPERSESSION (C3) ==================

/-- Overlapping fetches for ONE cache key, identified by the order they were
initiated in.  `activeReq` is the `AbortController` registered in
`activeRequests` for the key; `aborted` records every controller on which
`.abort()` was called; `cache` records which fetch's data `candleCache`
currently holds for the key. -/
structure SupersedeState where
  activeReq : Option Nat
  aborted : List Nat
  cache : Option Nat
deriving DecidableEq, Repr

/-- An event-loop step of the overlapping fetches: `start i` is the
synchronous prefix of a fetch call (cache miss or `forceRefresh`),
`complete i` is the arrival of fetch `i`'s response together with its
continuation. -/
inductive FetchEvt where
  | start (i : Nat)
  | complete (i : Nat)
deriving DecidableEq, Repr

/-- Step `start i` (lines 500-508): abort the controller registered for the key,
delete it, register fetch `i`'s fresh controller.  `complete i`: if fetch `i`
was aborted while in flight, its `fetch` rejects with `AbortError` and the
catch block (lines 568-573) runs `activeRequests.delete(cacheKey)` —
deleting WHATEVER controller is currently registered under the key, not
fetch `i`'s own; otherwise the success path (lines 558-562) stores the
result in the cache and deletes the registration. -/
def supersedeStep (s : SupersedeState) : FetchEvt → SupersedeState
  | .start i =>
      match s.activeReq with
      | some j => { s with activeReq := some i, aborted := j :: s.aborted }
      | none => { s with activeReq := some i }
  | .complete i =>
      if i ∈ s.aborted then { s with activeReq := none }
      else { s with cache := some i, activeReq := none }

def runFetches (evts : List FetchEvt) : SupersedeState :=
  evts.foldl supersedeStep ⟨none, [], none⟩

/-- The failing schedule for C3: fetches 1, 2, 3 initiated in that order for
the same cache key.  Fetch 2's start aborts fetch 1; fetch 1's rejected
promise then runs the catch block, which deletes fetch 2's controller from
`activeRequests`; so when fetch 3 starts it finds no controller and cancels
nothing; fetch 3 completes, then fetch 2 — never aborted — completes last.
Every step is a realisable interleaving of the single-threaded event loop. -/
def c3Schedule : List FetchEvt :=
  [.start 1, .start 2, .complete 1, .start 3, .complete 3, .complete 2]

/-- C3 is violated by the code: on `c3Schedule` only fetch 1 was ever
aborted — starting fetch 3 did NOT cancel the in-flight fetch 2 — and the
cache ends up holding superseded fetch 2's result, not last-initiated
fetch 3's, so the last-initiated fetch does not win. -/
theorem c3_superseded_fetch_wins :
    runFetches c3Schedule =
      { activeReq := none, aborted := [1], cache := some 2 } := by
  rfl

/-- Witness for C2 at a concrete input: the invariant's per-element bounds
hold for the single surviving candle of `cleanChartData [goodC]`. -/
theorem c2_normalizer_invariants_witness :
    goodC.low.le goodC.open_ = true ∧ goodC.open_.le goodC.high = true ∧
    goodC.low.le goodC.close = true ∧ goodC.close.le goodC.high = true ∧
    goodC.low.le goodC.high = true :=
  (c2_normalizer_invariants [goodC]).2.2 goodC
    (by rw [cleanChartData_goodC]; exact List.mem_singleton_self _)
